import Mathlib

/-!
Verification of the TrackMate job-telemetry pipeline against its
natural-language specification.

The Lean definitions below are shallow embeddings of the Python sources:

* `src/components/monitoring-v2/protocol/messages.py`
  (`Message`, `Message.to_ldjson`, `MessageParser.parse`,
  `MessageParser.validate_message`)
* `src/components/monitoring-v2/sidecar/tcp_listener.py`
  (`ConnectionHandler.handle`)
* `src/components/monitoring-v2/sdk/python/monitoring_sdk.py`
  (`MonitoringSDK._buffer_message`, `_send_message`, `_flush_buffer`,
  `_connect`)
* `src/components/monitoring/sidecar/backend_router.py`
  (`SidecarBackend.record_success`, `record_failure`, `is_available`,
  `BackendRouter.route_batch`)
* `src/apps/local_api/main.py` (the `ingest` endpoint)

Modelling conventions: machine integers are `Nat`/`Int`; Python wall-clock
times are `Int` values passed explicitly; fallible code returns `Except`;
the Python standard-library JSON codec (`json.dumps` / `json.loads`) is
modelled as the identity between a JSON text and its document tree `Json`,
with `jsonLength` computing the exact character count of the compact
serialization (`separators=(',',':')`, `ensure_ascii=True`) so that the
size checks of the source are reproduced faithfully.
-/

/-- A JSON document, as produced by `json.loads` in the Python sources.
Numbers are restricted to integers (no claim depends on float payloads). -/
inductive Json where
  | null
  | bool (b : Bool)
  | num (n : Int)
  | str (s : String)
  | arr (elems : List Json)
  | obj (entries : List (String × Json))

mutual

/-- Decidable equality for `Json` (written by hand: automatic deriving
does not reach through the nested lists). -/
def Json.decEq : (a b : Json) → Decidable (a = b)
  | .null, .null => isTrue rfl
  | .null, .bool _ => isFalse (fun h => Json.noConfusion h)
  | .null, .num _ => isFalse (fun h => Json.noConfusion h)
  | .null, .str _ => isFalse (fun h => Json.noConfusion h)
  | .null, .arr _ => isFalse (fun h => Json.noConfusion h)
  | .null, .obj _ => isFalse (fun h => Json.noConfusion h)
  | .bool _, .null => isFalse (fun h => Json.noConfusion h)
  | .bool a, .bool b =>
    if h : a = b then isTrue (by rw [h])
    else isFalse (fun hh => by injection hh with h1; exact h h1)
  | .bool _, .num _ => isFalse (fun h => Json.noConfusion h)
  | .bool _, .str _ => isFalse (fun h => Json.noConfusion h)
  | .bool _, .arr _ => isFalse (fun h => Json.noConfusion h)
  | .bool _, .obj _ => isFalse (fun h => Json.noConfusion h)
  | .num _, .null => isFalse (fun h => Json.noConfusion h)
  | .num _, .bool _ => isFalse (fun h => Json.noConfusion h)
  | .num a, .num b =>
    if h : a = b then isTrue (by rw [h])
    else isFalse (fun hh => by injection hh with h1; exact h h1)
  | .num _, .str _ => isFalse (fun h => Json.noConfusion h)
  | .num _, .arr _ => isFalse (fun h => Json.noConfusion h)
  | .num _, .obj _ => isFalse (fun h => Json.noConfusion h)
  | .str _, .null => isFalse (fun h => Json.noConfusion h)
  | .str _, .bool _ => isFalse (fun h => Json.noConfusion h)
  | .str _, .num _ => isFalse (fun h => Json.noConfusion h)
  | .str a, .str b =>
    if h : a = b then isTrue (by rw [h])
    else isFalse (fun hh => by injection hh with h1; exact h h1)
  | .str _, .arr _ => isFalse (fun h => Json.noConfusion h)
  | .str _, .obj _ => isFalse (fun h => Json.noConfusion h)
  | .arr _, .null => isFalse (fun h => Json.noConfusion h)
  | .arr _, .bool _ => isFalse (fun h => Json.noConfusion h)
  | .arr _, .num _ => isFalse (fun h => Json.noConfusion h)
  | .arr _, .str _ => isFalse (fun h => Json.noConfusion h)
  | .arr a, .arr b =>
    match Json.decEqList a b with
    | isTrue h => isTrue (by rw [h])
    | isFalse h => isFalse (fun hh => by injection hh with h1; exact h h1)
  | .arr _, .obj _ => isFalse (fun h => Json.noConfusion h)
  | .obj _, .null => isFalse (fun h => Json.noConfusion h)
  | .obj _, .bool _ => isFalse (fun h => Json.noConfusion h)
  | .obj _, .num _ => isFalse (fun h => Json.noConfusion h)
  | .obj _, .str _ => isFalse (fun h => Json.noConfusion h)
  | .obj _, .arr _ => isFalse (fun h => Json.noConfusion h)
  | .obj a, .obj b =>
    match Json.decEqObj a b with
    | isTrue h => isTrue (by rw [h])
    | isFalse h => isFalse (fun hh => by injection hh with h1; exact h h1)

/-- Decidable equality for lists of JSON values. -/
def Json.decEqList : (a b : List Json) → Decidable (a = b)
  | [], [] => isTrue rfl
  | [], _ :: _ => isFalse (fun h => List.noConfusion h)
  | _ :: _, [] => isFalse (fun h => List.noConfusion h)
  | x :: xs, y :: ys =>
    match Json.decEq x y with
    | isFalse h => isFalse (fun hh => by injection hh with h1 h2; exact h h1)
    | isTrue h1 =>
      match Json.decEqList xs ys with
      | isFalse h => isFalse (fun hh => by injection hh with ha hb; exact h hb)
      | isTrue h2 => isTrue (by rw [h1, h2])

/-- Decidable equality for JSON object entry lists. -/
def Json.decEqObj : (a b : List (String × Json)) → Decidable (a = b)
  | [], [] => isTrue rfl
  | [], _ :: _ => isFalse (fun h => List.noConfusion h)
  | _ :: _, [] => isFalse (fun h => List.noConfusion h)
  | (k1, v1) :: xs, (k2, v2) :: ys =>
    if hk : k1 = k2 then
      match Json.decEq v1 v2 with
      | isFalse h => isFalse (fun hh => by
          injection hh with ha hb
          injection ha with hk2 hv
          exact h hv)
      | isTrue hv =>
        match Json.decEqObj xs ys with
        | isFalse h => isFalse (fun hh => by injection hh with ha hb; exact h hb)
        | isTrue ht => isTrue (by rw [hk, hv, ht])
    else
      isFalse (fun hh => by
        injection hh with ha hb
        injection ha with h1 h2
        exact hk h1)

end

instance : DecidableEq Json := Json.decEq

/-- Character count of the escaped form of one character inside a JSON
string literal under `json.dumps` defaults (`ensure_ascii=True`):
`"` and `\` become 2 chars; the short control escapes 2; other control
characters 6 (`\uXXXX`); printable ASCII 1; other BMP characters 6;
astral characters 12 (a surrogate pair of `\uXXXX`). -/
def escLenChar (c : Char) : Nat :=
  if c = '"' ∨ c = '\\' then 2
  else if c.toNat < 0x20 then
    if c = '\x08' ∨ c = '\x09' ∨ c = '\x0a' ∨ c = '\x0c' ∨ c = '\x0d' then 2 else 6
  else if c.toNat ≤ 0x7e then 1
  else if c.toNat ≤ 0xffff then 6
  else 12

/-- Escaped length of a whole string (without the surrounding quotes). -/
def escLenString (s : String) : Nat :=
  s.data.foldl (fun acc c => acc + escLenChar c) 0

/-- Number of decimal digits, with structural fuel (the fuel `n` always
suffices since the argument shrinks by a factor of ten per step). -/
def digitsLenAux : Nat → Nat → Nat
  | 0, _ => 1
  | fuel + 1, n => if n < 10 then 1 else 1 + digitsLenAux fuel (n / 10)

/-- Number of decimal digits of a natural number (at least 1). -/
def digitsLen (n : Nat) : Nat := digitsLenAux n n

/-- Character count of the decimal representation of an integer. -/
def intReprLen : Int → Nat
  | .ofNat n => digitsLen n
  | .negSucc m => 1 + digitsLen (m + 1)

mutual

/-- Exact character count of `json.dumps(v, separators=(',',':'))`. -/
def jsonLength : Json → Nat
  | .null => 4
  | .bool b => if b then 4 else 5
  | .num n => intReprLen n
  | .str s => 2 + escLenString s
  | .arr es => 2 + jsonArrLen es
  | .obj kvs => 2 + jsonObjLen kvs

/-- Length of the comma-separated member list of a JSON array. -/
def jsonArrLen : List Json → Nat
  | [] => 0
  | [x] => jsonLength x
  | x :: y :: xs => jsonLength x + 1 + jsonArrLen (y :: xs)

/-- Length of the comma-separated entry list of a JSON object. -/
def jsonObjLen : List (String × Json) → Nat
  | [] => 0
  | [kv] => 2 + escLenString kv.1 + 1 + jsonLength kv.2
  | kv :: kv2 :: xs => 2 + escLenString kv.1 + 1 + jsonLength kv.2 + 1 + jsonObjLen (kv2 :: xs)

end

/-- First-match lookup in a JSON object entry list (models `dict` access;
`json.loads` already collapses duplicate keys). -/
def jsonLookup (k : String) : List (String × Json) → Option Json
  | [] => none
  | kv :: rest => if kv.1 = k then some kv.2 else jsonLookup k rest

/-- The message envelope of `protocol/messages.py` (`@dataclass Message`).
Python is dynamically typed, so every field holds a JSON value; the four
optional fields default to `None` (here `Json.null`), exactly as in the
dataclass declaration. -/
structure Message where
  v : Json
  src : Json
  ts : Json
  type : Json
  tid : Json := .null
  sid : Json := .null
  pid : Json := .null
  data : Json := .null
deriving DecidableEq

/-- `dataclasses.asdict` of a `Message`: the 8 fields in declaration
order (this is the document `Message.to_json` serializes). -/
def Message.toDoc (m : Message) : Json :=
  .obj [("v", m.v), ("src", m.src), ("ts", m.ts), ("type", m.type),
        ("tid", m.tid), ("sid", m.sid), ("pid", m.pid), ("data", m.data)]

/-- Byte count of `Message.to_ldjson` output: the serialized document
plus the terminating newline (all claims use ASCII payloads, so bytes
and characters coincide). -/
def Message.ldjsonLen (m : Message) : Nat := jsonLength m.toDoc + 1

/-- The known wire types, `[t.value for t in MessageType]`. -/
def messageTypeValues : List String :=
  ["event", "metric", "progress", "resource", "span", "heartbeat", "goodbye"]

/-- The keyword names `Message(**data)` accepts (the dataclass fields);
any other key raises `TypeError`. -/
def messageFieldNames : List String :=
  ["v", "src", "ts", "type", "tid", "sid", "pid", "data"]

/-- The failure modes of `MessageParser.parse`. In Python every one of
them surfaces as a `ValueError`; the constructors record which check
fired (`tooLarge` is the size check that runs before JSON decoding). -/
inductive ParseError where
  | tooLarge (n : Nat)
  | invalidJson
  | missingFields
  | badVersion
  | unknownType
  | constructError
deriving DecidableEq

/-- One received line, after `line.strip()`. `blank` strips to the empty
string; `malformed` is text that is not valid JSON (with its stripped
character count, which the size check still inspects); `doc` is valid
JSON text carrying document `j`, of stripped length `jsonLength j`. -/
inductive Frame where
  | blank
  | malformed (strippedLen : Nat)
  | doc (j : Json)

/-- `MessageParser.MAX_MESSAGE_SIZE = 64 * 1024`. -/
def maxMessageSize : Nat := 64 * 1024

/-- The document-level tail of `MessageParser.parse`: required-field
presence, protocol version, known type, and `Message(**data)`
reconstruction (whose `TypeError` on an unexpected key is caught and
re-raised as a `ValueError`). A non-object document fails the
`'v' not in data` membership test or the construction itself. -/
def MessageParser.parseDoc : Json → Except ParseError Message
  | .obj kvs =>
    if (jsonLookup "v" kvs).isNone ∨ (jsonLookup "src" kvs).isNone ∨
       (jsonLookup "ts" kvs).isNone ∨ (jsonLookup "type" kvs).isNone then
      .error .missingFields
    else if jsonLookup "v" kvs ≠ some (.num 1) then
      .error .badVersion
    else
      match jsonLookup "type" kvs with
      | none => .error .missingFields
      | some (.str t) =>
        if t ∈ messageTypeValues then
          if kvs.all (fun kv => kv.1 ∈ messageFieldNames) then
            .ok { v := (jsonLookup "v" kvs).getD .null,
                  src := (jsonLookup "src" kvs).getD .null,
                  ts := (jsonLookup "ts" kvs).getD .null,
                  type := .str t,
                  tid := (jsonLookup "tid" kvs).getD .null,
                  sid := (jsonLookup "sid" kvs).getD .null,
                  pid := (jsonLookup "pid" kvs).getD .null,
                  data := (jsonLookup "data" kvs).getD .null }
          else .error .constructError
        else .error .unknownType
      | some _ => .error .unknownType
  | _ => .error .missingFields

/-- `MessageParser.parse(line)`: strip (already reflected in `Frame`),
return `None` on an empty line, raise on stripped length exceeding
`MAX_MESSAGE_SIZE`, then decode and validate the document. -/
def MessageParser.parse : Frame → Except ParseError (Option Message)
  | .blank => .ok none
  | .malformed n =>
    if n > maxMessageSize then .error (.tooLarge n) else .error .invalidJson
  | .doc j =>
    if jsonLength j > maxMessageSize then .error (.tooLarge (jsonLength j))
    else (MessageParser.parseDoc j).map some

/-- Python truthiness of a JSON value (`if not msg.src`). -/
def jsonTruthy : Json → Bool
  | .null => false
  | .bool b => b
  | .num n => n != 0
  | .str s => s != ""
  | .arr es => !es.isEmpty
  | .obj kvs => !kvs.isEmpty

/-- Payload key presence for `validate_message`: Python evaluates
`not msg.data or 'level' not in msg.data`, so the payload must be a
truthy container holding the key. -/
def dataHasKey (d : Json) (k : String) : Bool :=
  match d with
  | .obj kvs => !kvs.isEmpty && (jsonLookup k kvs).isSome
  | _ => false

/-- `MessageParser.validate_message(msg)` at wall-clock `now` (millis):
truthy `src` and `type`, the timestamp window `[now-24h, now+60s]`, and
the type-specific payload checks. A non-numeric `ts` or `percent` makes
the Python comparison raise; the connection handler catches that
exception and skips the line just as it skips a `False` verdict, so the
model returns `false` there. -/
def MessageParser.validateMessage (now : Int) (m : Message) : Bool :=
  jsonTruthy m.src && jsonTruthy m.type &&
  (match m.ts with
   | .num ts => decide (ts ≤ now + 60000) && decide (now - 86400000 ≤ ts)
   | _ => false) &&
  (if m.type = .str "event" then
     dataHasKey m.data "level" && dataHasKey m.data "msg"
   else if m.type = .str "metric" then
     dataHasKey m.data "name" && dataHasKey m.data "value"
   else if m.type = .str "progress" then
     dataHasKey m.data "job_id" && dataHasKey m.data "percent" &&
     (match m.data with
      | .obj kvs =>
        match jsonLookup "percent" kvs with
        | some (.num p) => decide (0 ≤ p) && decide (p ≤ 100)
        | _ => false
      | _ => false)
   else if m.type = .str "span" then
     jsonTruthy m.tid && jsonTruthy m.sid
   else true)

/-- Stripped character count of a received line's content. -/
def Frame.strippedLen : Frame → Nat
  | .blank => 0
  | .malformed n => n
  | .doc j => jsonLength j

/-- The `asyncio` stream limit (`_DEFAULT_LIMIT = 2 ** 16 = 65536`):
`TCPListener.start` calls `asyncio.start_server` without a `limit`
argument, so `StreamReader.readline` raises `ValueError` for any line
whose content before the newline exceeds this many bytes (the
separator index found by `readuntil` is then greater than the limit). -/
def streamLimit : Nat := 65536

/-- One raw line on the wire: its stripped view `frame` plus the `pad`
whitespace characters `strip()` removes, so the content before the
terminating newline is `len = frame.strippedLen + pad` bytes. -/
structure RawLine where
  frame : Frame
  pad : Nat

/-- Byte count of the line's content before the terminating newline. -/
def RawLine.len (l : RawLine) : Nat := l.frame.strippedLen + l.pad

/-- Why the per-connection read loop of `ConnectionHandler.handle`
stopped: end of stream, a `goodbye` message, or a connection error —
in particular `readline`'s `ValueError` on an oversize line, which is
raised outside the per-message `try` and therefore reaches the outer
`except Exception`, ending the loop. -/
inductive CloseReason where
  | eof
  | goodbye
  | readError
deriving DecidableEq

/-- The read loop of `ConnectionHandler.handle` over the connection's
incoming lines. `reader.readline()` raises `ValueError` when a line's
content exceeds the 64 KiB stream limit; that call sits outside the
inner `try`, so the outer `except Exception` breaks the loop and the
connection closes (`readError`). A delivered line that fails to parse
(the parser's `ValueError`) or to validate is logged and skipped with
`continue` — the connection stays open; an empty line parses to `None`
and is skipped by `if message:`; a `goodbye` breaks the loop; every
other valid message is forwarded to `on_message` in order. Returns the
forwarded messages and the close reason. -/
def ConnectionHandler.handleLines (now : Int) :
    List RawLine → List Message × CloseReason
  | [] => ([], .eof)
  | l :: rest =>
    if l.len > streamLimit then ([], .readError)
    else
      match MessageParser.parse l.frame with
      | .error _ => ConnectionHandler.handleLines now rest
      | .ok none => ConnectionHandler.handleLines now rest
      | .ok (some m) =>
        if ¬ MessageParser.validateMessage now m then
          ConnectionHandler.handleLines now rest
        else if m.type = .str "goodbye" then
          ([], .goodbye)
        else
          let r := ConnectionHandler.handleLines now rest
          (m :: r.1, r.2)

/-- `State` of `monitoring_sdk.py`: the SDK connection states. -/
inductive SdkConn where
  | disconnected
  | connected
  | overflow
deriving DecidableEq

/-- A message held by the SDK. The dict contents are opaque to the
buffer logic; `wireSize` is the byte count of its serialized LDJSON
line, which `_send_message` checks against `MAX_MESSAGE_SIZE`. -/
structure SdkMsg where
  id : Nat
  wireSize : Nat
deriving DecidableEq

/-- `MonitoringSDK.MAX_BUFFER_SIZE`. -/
def maxBufferSize : Nat := 1000

/-- `MonitoringSDK.MAX_RECONNECT_DELAY` (seconds). -/
def maxReconnectDelay : Nat := 30

/-- The mutable state of a `MonitoringSDK` instance, plus the outcome
oracles for the two I/O operations: `connectOutcomes` feeds each
`socket.connect` attempt and `sendOutcomes` each `socket.sendall`
(`true` = the call returns, `false` = it raises). The buffer list's
head is the `popleft` end of the `deque`. Times are integer seconds. -/
structure Sdk where
  conn : SdkConn
  hasSocket : Bool
  buffer : List SdkMsg
  overflowCount : Nat
  messagesBuffered : Nat
  messagesDropped : Nat
  messagesSent : Nat
  reconnectCount : Nat
  reconnectDelay : Nat
  lastReconnect : Int
  connectOutcomes : List Bool
  sendOutcomes : List Bool
deriving DecidableEq

/-- Consume the next `socket.connect` outcome (an exhausted oracle
refuses the connection). -/
def Sdk.takeConnect (s : Sdk) : Bool × Sdk :=
  match s.connectOutcomes with
  | [] => (false, s)
  | b :: rest => (b, { s with connectOutcomes := rest })

/-- Consume the next `socket.sendall` outcome. -/
def Sdk.takeSend (s : Sdk) : Bool × Sdk :=
  match s.sendOutcomes with
  | [] => (false, s)
  | b :: rest => (b, { s with sendOutcomes := rest })

/-- `MonitoringSDK._buffer_message`: append to the deque while below
`MAX_BUFFER_SIZE`; on a full buffer the offered message is not stored
(the guard prevents the deque's own drop-oldest from ever firing) and
the SDK records an overflow and a drop. -/
def Sdk.bufferMessage (s : Sdk) (m : SdkMsg) : Sdk :=
  if s.buffer.length < maxBufferSize then
    { s with buffer := s.buffer ++ [m],
             messagesBuffered := s.messagesBuffered + 1 }
  else
    { s with conn := .overflow,
             overflowCount := s.overflowCount + 1,
             messagesDropped := s.messagesDropped + 1 }

/-- `deque.appendleft` under `maxlen = MAX_BUFFER_SIZE`: inserting at
the left of a full deque silently discards the rightmost element. -/
def dequeAppendLeft (m : SdkMsg) (buf : List SdkMsg) : List SdkMsg :=
  if buf.length >= maxBufferSize then m :: buf.dropLast else m :: buf

mutual

/-- `MonitoringSDK._connect` at wall-clock `now`: no-op when already
connected; throttled by the reconnect backoff; otherwise one connection
attempt — success resets the backoff and flushes the buffer, failure
doubles the backoff (capped at `MAX_RECONNECT_DELAY`). `fuel` bounds
the (time-throttled in Python) mutual recursion with the flush loop. -/
def Sdk.connect : Nat → Int → Sdk → Bool × Sdk
  | 0, _, s => (false, s)
  | fuel + 1, now, s =>
    if s.conn = .connected ∧ s.hasSocket then (true, s)
    else if now - s.lastReconnect < (s.reconnectDelay : Int) then (false, s)
    else
      let s1 := { s with lastReconnect := now }
      let r := s1.takeConnect
      if r.1 then
        let s3 := { r.2 with hasSocket := true, conn := .connected,
                             reconnectDelay := 1,
                             reconnectCount := r.2.reconnectCount + 1 }
        (true, Sdk.flushBuffer fuel now s3)
      else
        (false, { r.2 with conn := .disconnected, hasSocket := false,
                           reconnectDelay :=
                             min (r.2.reconnectDelay * 2) maxReconnectDelay })

/-- `MonitoringSDK._send_message`: drop an oversize serialization;
when connected, try `sendall` — on failure mark `DISCONNECTED`, buffer
the message (at the tail, via `_buffer_message`) and attempt a
reconnect; when not connected, buffer and attempt a reconnect. -/
def Sdk.sendMessage : Nat → Int → Sdk → SdkMsg → Bool × Sdk
  | 0, _, s, _ => (false, s)
  | fuel + 1, now, s, m =>
    if m.wireSize > maxMessageSize then
      (false, { s with messagesDropped := s.messagesDropped + 1 })
    else if s.conn = .connected ∧ s.hasSocket then
      let r := s.takeSend
      if r.1 then
        (true, { r.2 with messagesSent := r.2.messagesSent + 1 })
      else
        let s2 := { r.2 with conn := .disconnected }
        let s3 := s2.bufferMessage m
        (false, (Sdk.connect fuel now s3).2)
    else
      let s1 := s.bufferMessage m
      (false, (Sdk.connect fuel now s1).2)

/-- The drain loop of `MonitoringSDK._flush_buffer`: while the buffer
is non-empty and the state is `CONNECTED`, pop the head and resend it;
on a failed resend, put the popped message back with `appendleft` and
stop. -/
def Sdk.flushLoop : Nat → Int → Sdk → Sdk
  | 0, _, s => s
  | fuel + 1, now, s =>
    match s.buffer with
    | [] => s
    | m :: rest =>
      if s.conn = .connected then
        let s1 := { s with buffer := rest }
        let r := Sdk.sendMessage fuel now s1 m
        if r.1 then Sdk.flushLoop fuel now r.2
        else { r.2 with buffer := dequeAppendLeft m r.2.buffer }
      else s

/-- `MonitoringSDK._flush_buffer`: return immediately unless connected
with a live socket; run the drain loop; if it left the buffer empty
while the state reads `OVERFLOW`, clear the overflow. -/
def Sdk.flushBuffer : Nat → Int → Sdk → Sdk
  | 0, _, s => s
  | fuel + 1, now, s =>
    if s.conn = .connected ∧ s.hasSocket then
      let s1 := Sdk.flushLoop fuel now s
      if s1.buffer = [] ∧ s1.conn = .overflow then
        { s1 with conn := .connected, overflowCount := 0 }
      else s1
    else s

end

/-- `BackendStatus` of `backend_router.py`. -/
inductive BackendStatus where
  | healthy
  | degraded
  | failed
deriving DecidableEq

/-- The circuit-breaker-relevant state of one `SidecarBackend`:
its identifying `type.value` string, the `enabled` flag, `_status`
and `_failure_count` (`_max_failures` is the constant 5). -/
structure Backend where
  name : String
  enabled : Bool
  status : BackendStatus
  failureCount : Nat
deriving DecidableEq

/-- `SidecarBackend._max_failures`. -/
def maxFailures : Nat := 5

/-- `SidecarBackend.record_success`: decrement a positive failure
count; if the count has reached zero, the status becomes `HEALTHY`. -/
def recordSuccess (b : Backend) : Backend :=
  let c := if b.failureCount > 0 then b.failureCount - 1 else b.failureCount
  if c = 0 then { b with failureCount := c, status := .healthy }
  else { b with failureCount := c }

/-- `SidecarBackend.record_failure`: increment the failure count; at
`_max_failures` the status becomes `FAILED` (the breaker opens), above
2 it becomes `DEGRADED`, otherwise it is left unchanged. -/
def recordFailure (b : Backend) : Backend :=
  let c := b.failureCount + 1
  if c ≥ maxFailures then { b with failureCount := c, status := .failed }
  else if c > 2 then { b with failureCount := c, status := .degraded }
  else { b with failureCount := c }

/-- `SidecarBackend.is_available`: anything but `FAILED`. -/
def Backend.isAvailable (b : Backend) : Bool := b.status ≠ .failed

/-- The backend names `route_batch` submits `send_batch` to: every
enabled backend whose breaker is not `FAILED`. -/
def selectedNames (bs : List Backend) : List String :=
  (bs.filter (fun b => b.enabled && b.isAvailable)).map Backend.name

/-- The result-collection step of `route_batch`: for the named backend
(the first with that `type.value`, as `next(b for b in self.backends
if b.type.value == backend_name)` finds it), apply `record_success` or
`record_failure` according to the `send_batch` result. -/
def applyResult (name : String) (ok : Bool) : List Backend → List Backend
  | [] => []
  | b :: rest =>
    if b.name = name then
      (if ok then recordSuccess b else recordFailure b) :: rest
    else b :: applyResult name ok rest

/-- `BackendRouter.route_batch` for one batch: select the enabled,
available backends, submit `send_batch` to each (the per-backend
outcome is `res name`), then fold the breaker updates. Returns the
updated backend list and the list of backends the batch was sent to. -/
def routeBatch (res : String → Bool) (bs : List Backend) :
    List Backend × List String :=
  let sel := selectedNames bs
  (sel.foldl (fun acc n => applyResult n (res n) acc) bs, sel)

/-- The breaker update `route_batch` performs on one selected backend. -/
def routeStep (res : String → Bool) (b : Backend) : Backend :=
  if b.enabled && b.isAvailable then
    (if res b.name then recordSuccess b else recordFailure b)
  else b

/-- A sequence of `route_batch` calls (one result function per batch). -/
def routeRounds (ress : List (String → Bool)) (bs : List Backend) :
    List Backend :=
  ress.foldl (fun acc r => (routeBatch r acc).1) bs

/-- All backend names sent to across a sequence of `route_batch` calls. -/
def sentRounds : List (String → Bool) → List Backend → List String
  | [], _ => []
  | r :: rs, bs => (routeBatch r bs).2 ++ sentRounds rs (routeBatch r bs).1

/-- One `IngestEvent` request body of `local_api/main.py`, carrying the
values the `ingest` endpoint reads out of its `app`, `entity` and
`event` dicts. `at` is the timestamp parsed by `datetime.fromisoformat`
(in unix seconds, field `atTs`; `none` models a missing or unparseable
`event['at']`);
`Option` fields are `dict.get` results whose defaults the endpoint
applies at the insert site; `eventRaw` is the whole `event` dict, which
is stored verbatim (`json.dumps(ev.event)`) in the event row's payload
column. Numeric metric values are modelled as integers. -/
structure IngestEvent where
  idempotencyKey : String
  siteId : String
  appId : String
  appName : Option String
  appVersion : Option String
  entityType : String
  entityId : String
  parentId : Option String
  businessKey : Option String
  subKey : Option String
  atTs : Option Int
  kind : String
  status : Option String
  startedAt : Option Int
  endedAt : Option Int
  durationS : Option Int
  cpuUserS : Option Int
  cpuSystemS : Option Int
  memMaxMb : Option Int
  metadata : Json
  eventRaw : Json
deriving DecidableEq

/-- A row of the `event` table (`idempotency_key UNIQUE`). -/
structure EventRow where
  atTs : Int
  entityType : String
  entityId : String
  appId : String
  siteId : String
  kind : String
  payload : Json
  idempotencyKey : String
deriving DecidableEq

/-- A row of the `app` table (`app_id` primary key). -/
structure AppRow where
  appId : String
  name : String
  version : String
  siteId : String
deriving DecidableEq

/-- A row of the append-only `job` table (list position models
`inserted_at` order). -/
structure JobRow where
  jobId : String
  appId : String
  siteId : String
  jobKey : String
  status : String
  startedAt : Option Int
  endedAt : Option Int
  durationS : Option Int
  cpuUserS : Int
  cpuSystemS : Int
  memMaxMb : Int
  metadata : Json
deriving DecidableEq

/-- A row of the append-only `subjob` table. Note the endpoint binds
`entity['id']` to `subjob_id` and `entity.get('parent_id')` to
`job_id`. -/
structure SubjobRow where
  subjobId : String
  jobId : Option String
  appId : String
  siteId : String
  subKey : String
  status : String
  startedAt : Option Int
  endedAt : Option Int
  durationS : Option Int
  cpuUserS : Int
  cpuSystemS : Int
  memMaxMb : Int
  metadata : Json
deriving DecidableEq

/-- The four tables the `ingest` endpoint writes. -/
structure Db where
  events : List EventRow
  apps : List AppRow
  jobs : List JobRow
  subjobs : List SubjobRow
deriving DecidableEq

/-- The event row the endpoint inserts (parameter list of the first
`INSERT`). -/
def mkEventRow (ev : IngestEvent) (evAt : Int) : EventRow :=
  { atTs := evAt, entityType := ev.entityType, entityId := ev.entityId,
    appId := ev.appId, siteId := ev.siteId, kind := ev.kind,
    payload := ev.eventRaw, idempotencyKey := ev.idempotencyKey }

/-- The app row the endpoint upserts (`.get` defaults applied). -/
def mkAppRow (ev : IngestEvent) : AppRow :=
  { appId := ev.appId, name := ev.appName.getD "",
    version := ev.appVersion.getD "", siteId := ev.siteId }

/-- The job row the endpoint inserts when `entity['type'] == 'job'`. -/
def mkJobRow (ev : IngestEvent) : JobRow :=
  { jobId := ev.entityId, appId := ev.appId, siteId := ev.siteId,
    jobKey := ev.businessKey.getD "", status := ev.status.getD "running",
    startedAt := ev.startedAt, endedAt := ev.endedAt,
    durationS := ev.durationS, cpuUserS := ev.cpuUserS.getD 0,
    cpuSystemS := ev.cpuSystemS.getD 0, memMaxMb := ev.memMaxMb.getD 0,
    metadata := ev.metadata }

/-- The subjob row the endpoint inserts for every other entity type. -/
def mkSubjobRow (ev : IngestEvent) : SubjobRow :=
  { subjobId := ev.entityId, jobId := ev.parentId, appId := ev.appId,
    siteId := ev.siteId, subKey := ev.subKey.getD "",
    status := ev.status.getD "running", startedAt := ev.startedAt,
    endedAt := ev.endedAt, durationS := ev.durationS,
    cpuUserS := ev.cpuUserS.getD 0, cpuSystemS := ev.cpuSystemS.getD 0,
    memMaxMb := ev.memMaxMb.getD 0, metadata := ev.metadata }

/-- `INSERT INTO event ... ON CONFLICT (idempotency_key) DO NOTHING`. -/
def insertEvent (db : Db) (row : EventRow) : Db :=
  if db.events.any (fun r => r.idempotencyKey = row.idempotencyKey) then db
  else { db with events := db.events ++ [row] }

/-- `INSERT INTO app ... ON CONFLICT (app_id) DO NOTHING`. -/
def insertApp (db : Db) (row : AppRow) : Db :=
  if db.apps.any (fun r => r.appId = row.appId) then db
  else { db with apps := db.apps ++ [row] }

/-- The typed client failures of the `ingest` endpoint (both surface
as HTTP 422 before any database access). -/
inductive IngestError where
  | invalidTimestamp
  | skewTooLarge (skew : Nat)
deriving DecidableEq

/-- The `ingest` endpoint of `local_api/main.py`: parse the event
timestamp (422 on failure), reject when `abs(now - ev_at)` exceeds
`max_skew_s` (422, before touching the database), then in one
transaction insert the event row (idempotent on its key), upsert the
app row, and append a job row when `entity['type'] == 'job'` or a
subjob row for every other entity type — these two inserts have no
conflict clause and always append. -/
def ingest (maxSkewS : Int) (now : Int) (ev : IngestEvent) (db : Db) :
    Except IngestError Unit × Db :=
  match ev.atTs with
  | none => (.error .invalidTimestamp, db)
  | some evAt =>
    let skew := (now - evAt).natAbs
    if (skew : Int) > maxSkewS then (.error (.skewTooLarge skew), db)
    else
      let db1 := insertEvent db (mkEventRow ev evAt)
      let db2 := insertApp db1 (mkAppRow ev)
      if ev.entityType = "job" then
        (.ok (), { db2 with jobs := db2.jobs ++ [mkJobRow ev] })
      else
        (.ok (), { db2 with subjobs := db2.subjobs ++ [mkSubjobRow ev] })

/-- The batch endpoint `ingest_batch`: call `ingest` per record,
keeping the database of each step (per-record failures are counted
and otherwise ignored). -/
def ingestAll (maxSkewS : Int) (now : Int) (evs : List IngestEvent)
    (db : Db) : Db :=
  evs.foldl (fun d e => (ingest maxSkewS now e d).2) db

/-- The skew precondition under which `ingest` reaches the inserts. -/
def skewOk (maxSkewS : Int) (now : Int) (ev : IngestEvent) : Prop :=
  ∃ evAt, ev.atTs = some evAt ∧ ((now - evAt).natAbs : Int) ≤ maxSkewS

/-- Number of event rows bearing a given idempotency key. -/
def eventKeyCount (db : Db) (k : String) : Nat :=
  db.events.countP (fun r => r.idempotencyKey = k)

theorem insertEvent_jobs (db : Db) (r : EventRow) :
    (insertEvent db r).jobs = db.jobs := by
  unfold insertEvent; split <;> rfl

theorem insertEvent_subjobs (db : Db) (r : EventRow) :
    (insertEvent db r).subjobs = db.subjobs := by
  unfold insertEvent; split <;> rfl

theorem insertApp_jobs (db : Db) (r : AppRow) :
    (insertApp db r).jobs = db.jobs := by
  unfold insertApp; split <;> rfl

theorem insertApp_subjobs (db : Db) (r : AppRow) :
    (insertApp db r).subjobs = db.subjobs := by
  unfold insertApp; split <;> rfl

theorem insertApp_events (db : Db) (r : AppRow) :
    (insertApp db r).events = db.events := by
  unfold insertApp; split <;> rfl

/-- With the key already present, the conflict clause makes the event
insert a no-op. -/
theorem insertEvent_key_present (db : Db) (r : EventRow)
    (h : 1 ≤ eventKeyCount db r.idempotencyKey) :
    insertEvent db r = db := by
  unfold insertEvent
  rw [if_pos]
  rw [List.any_eq_true]
  have := Nat.lt_of_lt_of_le Nat.zero_lt_one h
  rw [eventKeyCount, List.countP_pos_iff] at this
  obtain ⟨a, ha, hp⟩ := this
  exact ⟨a, ha, hp⟩

/-- With the key absent, the event insert appends the row. -/
theorem insertEvent_key_fresh (db : Db) (r : EventRow)
    (h : eventKeyCount db r.idempotencyKey = 0) :
    insertEvent db r = { db with events := db.events ++ [r] } := by
  unfold insertEvent
  rw [if_neg]
  intro hany
  rw [List.any_eq_true] at hany
  obtain ⟨a, ha, hp⟩ := hany
  rw [eventKeyCount, List.countP_eq_zero] at h
  exact absurd hp (h a ha)

/-- Unfolding of a successful (skew-respecting) `ingest` call. -/
theorem ingest_run (maxSkewS now : Int) (ev : IngestEvent) (db : Db)
    (evAt : Int) (hat : ev.atTs = some evAt)
    (hle : ((now - evAt).natAbs : Int) ≤ maxSkewS) :
    ingest maxSkewS now ev db =
      (.ok (),
       let db2 := insertApp (insertEvent db (mkEventRow ev evAt)) (mkAppRow ev)
       if ev.entityType = "job" then
         { db2 with jobs := db2.jobs ++ [mkJobRow ev] }
       else
         { db2 with subjobs := db2.subjobs ++ [mkSubjobRow ev] }) := by
  unfold ingest
  rw [hat]
  simp only
  rw [if_neg (by omega)]
  split <;> rfl

/-- `ingest` never removes event rows, and adds the computed row only
when the key is fresh; with the key present the event table is
untouched (no matter how the projection inserts go). -/
theorem ingest_events_key_present (maxSkewS now : Int) (ev : IngestEvent)
    (db : Db) (k : String) (hk : ev.idempotencyKey = k)
    (hpos : 1 ≤ eventKeyCount db k) :
    (ingest maxSkewS now ev db).2.events = db.events := by
  unfold ingest
  cases hat : ev.atTs with
  | none => rfl
  | some evAt =>
    simp only
    split
    · rfl
    · have hins : insertEvent db (mkEventRow ev evAt) = db := by
        apply insertEvent_key_present
        simpa [mkEventRow, hk] using hpos
      split <;> simp [insertApp_events, hins]

/-- Folding further same-key records over a table that already holds
the key leaves the event table unchanged. -/
theorem ingestAll_events_key_present (maxSkewS now : Int) (k : String)
    (evs : List IngestEvent) (db : Db)
    (hk : ∀ x ∈ evs, x.idempotencyKey = k)
    (hpos : 1 ≤ eventKeyCount db k) :
    (ingestAll maxSkewS now evs db).events = db.events := by
  induction evs generalizing db with
  | nil => rfl
  | cons e rest ih =>
    have hstep := ingest_events_key_present maxSkewS now e db k
      (hk e (by simp)) hpos
    have hcnt : eventKeyCount ((ingest maxSkewS now e db).2) k =
        eventKeyCount db k := by
      rw [eventKeyCount, hstep, eventKeyCount]
    calc (ingestAll maxSkewS now (e :: rest) db).events
        = (ingestAll maxSkewS now rest (ingest maxSkewS now e db).2).events := rfl
      _ = ((ingest maxSkewS now e db).2).events := by
          exact ih _ (fun x hx => hk x (by simp [hx])) (by rw [hcnt]; exact hpos)
      _ = db.events := hstep

/-- A skew-respecting `ingest` call appends a job row exactly when the
entity type is `job`. -/
theorem ingest_jobs_run (maxSkewS now : Int) (ev : IngestEvent) (db : Db)
    (evAt : Int) (hat : ev.atTs = some evAt)
    (hle : ((now - evAt).natAbs : Int) ≤ maxSkewS) :
    (ingest maxSkewS now ev db).2.jobs =
      db.jobs ++ (if ev.entityType = "job" then [mkJobRow ev] else []) := by
  rw [ingest_run maxSkewS now ev db evAt hat hle]
  by_cases hj : ev.entityType = "job" <;>
    simp [hj, insertApp_jobs, insertEvent_jobs]

/-- A skew-respecting `ingest` call appends a subjob row exactly when
the entity type is anything other than `job`. -/
theorem ingest_subjobs_run (maxSkewS now : Int) (ev : IngestEvent) (db : Db)
    (evAt : Int) (hat : ev.atTs = some evAt)
    (hle : ((now - evAt).natAbs : Int) ≤ maxSkewS) :
    (ingest maxSkewS now ev db).2.subjobs =
      db.subjobs ++ (if ev.entityType = "job" then [] else [mkSubjobRow ev]) := by
  rw [ingest_run maxSkewS now ev db evAt hat hle]
  by_cases hj : ev.entityType = "job" <;>
    simp [hj, insertApp_subjobs, insertEvent_subjobs]

/-- A skew-respecting `ingest` call on a fresh key appends the event
row. -/
theorem ingest_events_key_fresh (maxSkewS now : Int) (ev : IngestEvent)
    (db : Db) (evAt : Int) (hat : ev.atTs = some evAt)
    (hle : ((now - evAt).natAbs : Int) ≤ maxSkewS)
    (hfresh : eventKeyCount db ev.idempotencyKey = 0) :
    (ingest maxSkewS now ev db).2.events = db.events ++ [mkEventRow ev evAt] := by
  rw [ingest_run maxSkewS now ev db evAt hat hle]
  have hins := insertEvent_key_fresh db (mkEventRow ev evAt)
    (by simpa [mkEventRow] using hfresh)
  by_cases hj : ev.entityType = "job" <;>
    simp [hj, insertApp_events, hins]

/-- Shared core of C7 and C10: folding a run of same-key requests whose
head passes the skew check over a key-fresh table appends exactly the
head's event row, so the key ends up on exactly one row. -/
theorem ingestAll_same_key_once (maxSkewS now : Int) (k : String)
    (e : IngestEvent) (evs : List IngestEvent) (db : Db) (evAt : Int)
    (hk : ∀ x ∈ e :: evs, x.idempotencyKey = k)
    (hat : e.atTs = some evAt)
    (hle : ((now - evAt).natAbs : Int) ≤ maxSkewS)
    (hfresh : eventKeyCount db k = 0) :
    (ingestAll maxSkewS now (e :: evs) db).events =
      db.events ++ [mkEventRow e evAt] ∧
    eventKeyCount (ingestAll maxSkewS now (e :: evs) db) k = 1 := by
  have hke : e.idempotencyKey = k := hk e (by simp)
  have h1 : (ingest maxSkewS now e db).2.events =
      db.events ++ [mkEventRow e evAt] :=
    ingest_events_key_fresh maxSkewS now e db evAt hat hle (by rw [hke]; exact hfresh)
  have hc1 : eventKeyCount ((ingest maxSkewS now e db).2) k = 1 := by
    rw [eventKeyCount, h1, List.countP_append]
    rw [eventKeyCount] at hfresh
    simp [hfresh, mkEventRow, hke]
  have h2 : (ingestAll maxSkewS now evs ((ingest maxSkewS now e db).2)).events =
      ((ingest maxSkewS now e db).2).events :=
    ingestAll_events_key_present maxSkewS now k evs _
      (fun x hx => hk x (by simp [hx])) (by rw [hc1])
  have hall : (ingestAll maxSkewS now (e :: evs) db).events =
      db.events ++ [mkEventRow e evAt] := by
    show (ingestAll maxSkewS now evs ((ingest maxSkewS now e db).2)).events = _
    rw [h2, h1]
  refine ⟨hall, ?_⟩
  rw [eventKeyCount, hall, List.countP_append]
  rw [eventKeyCount] at hfresh
  simp [hfresh, mkEventRow, hke]

/-- C8: an ingest request whose event timestamp deviates from the
server clock by more than `max_skew_s` gets a typed client error (the
skew 422) and the whole database — in particular the `event` table —
is exactly as before the call. -/
theorem c8_skew_rejection (maxSkewS now : Int) (ev : IngestEvent)
    (db : Db) (evAt : Int) (hat : ev.atTs = some evAt)
    (hskew : maxSkewS < ((now - evAt).natAbs : Int)) :
    ingest maxSkewS now ev db =
      (.error (.skewTooLarge (now - evAt).natAbs), db) ∧
    (ingest maxSkewS now ev db).2.events.length = db.events.length := by
  have h : ingest maxSkewS now ev db =
      (.error (.skewTooLarge (now - evAt).natAbs), db) := by
    unfold ingest
    rw [hat]
    simp only
    rw [if_pos (by omega)]
  exact ⟨h, by rw [h]⟩

/-- C10: a request that passes the skew check inserts its projection
row unconditionally — a job row exactly when `entity['type']` equals
`'job'` and a subjob row for every other entity type — even when the
idempotency key already exists; hence submitting the same record `n`
times yields `n` projection rows but (from a fresh key) only one event
row. -/
theorem c10_projection_unconditional (maxSkewS now : Int)
    (ev : IngestEvent) (db : Db) (evAt : Int) (hat : ev.atTs = some evAt)
    (hle : ((now - evAt).natAbs : Int) ≤ maxSkewS) :
    ((ev.entityType = "job" →
        (ingest maxSkewS now ev db).2.jobs = db.jobs ++ [mkJobRow ev] ∧
        (ingest maxSkewS now ev db).2.subjobs = db.subjobs) ∧
     (ev.entityType ≠ "job" →
        (ingest maxSkewS now ev db).2.subjobs =
          db.subjobs ++ [mkSubjobRow ev] ∧
        (ingest maxSkewS now ev db).2.jobs = db.jobs)) ∧
    (∀ n : Nat,
        (ingestAll maxSkewS now (List.replicate n ev) db).jobs.length =
          db.jobs.length + (if ev.entityType = "job" then n else 0) ∧
        (ingestAll maxSkewS now (List.replicate n ev) db).subjobs.length =
          db.subjobs.length + (if ev.entityType = "job" then 0 else n)) ∧
    (eventKeyCount db ev.idempotencyKey = 0 → ∀ n : Nat, 1 ≤ n →
        eventKeyCount (ingestAll maxSkewS now (List.replicate n ev) db)
          ev.idempotencyKey = 1) := by
  refine ⟨⟨?_, ?_⟩, ?_, ?_⟩
  · intro hj
    constructor
    · rw [ingest_jobs_run maxSkewS now ev db evAt hat hle]; simp [hj]
    · rw [ingest_subjobs_run maxSkewS now ev db evAt hat hle]; simp [hj]
  · intro hj
    constructor
    · rw [ingest_subjobs_run maxSkewS now ev db evAt hat hle]; simp [hj]
    · rw [ingest_jobs_run maxSkewS now ev db evAt hat hle]; simp [hj]
  · intro n
    induction n generalizing db with
    | zero => simp [ingestAll]
    | succ m ih =>
      have hstepj := ingest_jobs_run maxSkewS now ev db evAt hat hle
      have hsteps := ingest_subjobs_run maxSkewS now ev db evAt hat hle
      have hrep : List.replicate (m + 1) ev = ev :: List.replicate m ev :=
        List.replicate_succ ev m
      have hfold : ingestAll maxSkewS now (List.replicate (m + 1) ev) db =
          ingestAll maxSkewS now (List.replicate m ev)
            ((ingest maxSkewS now ev db).2) := by
        rw [hrep]; rfl
      obtain ⟨ihj, ihs⟩ := ih ((ingest maxSkewS now ev db).2)
      rw [hfold]
      constructor
      · rw [ihj, hstepj]
        by_cases hj : ev.entityType = "job" <;> simp [hj] <;> omega
      · rw [ihs, hsteps]
        by_cases hj : ev.entityType = "job" <;> simp [hj] <;> omega
  · intro hfresh n hn
    obtain ⟨m, rfl⟩ : ∃ m, n = m + 1 := ⟨n - 1, by omega⟩
    have hrep : List.replicate (m + 1) ev = ev :: List.replicate m ev :=
      List.replicate_succ ev m
    rw [hrep]
    have := ingestAll_same_key_once maxSkewS now ev.idempotencyKey ev
      (List.replicate m ev) db evAt ?_ hat hle hfresh
    · exact this.2
    · intro x hx
      rcases List.mem_cons.mp hx with h | h
      · rw [h]
      · rw [List.eq_of_mem_replicate h]

/-- C7: for every sequence of ingest requests sharing the same
`idempotency_key`, after all of them are processed the `event` table
contains exactly one row bearing that key — the first insert appends
its row and every duplicate hits `ON CONFLICT ... DO NOTHING`. -/
theorem c7_idempotent_event_insert (maxSkewS now : Int) (k : String)
    (e : IngestEvent) (evs : List IngestEvent) (db : Db) (evAt : Int)
    (hk : ∀ x ∈ e :: evs, x.idempotencyKey = k)
    (hat : e.atTs = some evAt)
    (hle : ((now - evAt).natAbs : Int) ≤ maxSkewS)
    (hfresh : eventKeyCount db k = 0) :
    (ingestAll maxSkewS now (e :: evs) db).events =
      db.events ++ [mkEventRow e evAt] ∧
    eventKeyCount (ingestAll maxSkewS now (e :: evs) db) k = 1 :=
  ingestAll_same_key_once maxSkewS now k e evs db evAt hk hat hle hfresh

/-- A concrete ingest request (a `job` entity) used by the witnesses. -/
def sampleIngestEvent : IngestEvent :=
  { idempotencyKey := "key-1", siteId := "site-1", appId := "app-1",
    appName := some "demo", appVersion := some "1.0",
    entityType := "job", entityId := "job-1", parentId := none,
    businessKey := some "bk", subKey := none, atTs := some 1000,
    kind := "job-event", status := some "running",
    startedAt := some 990, endedAt := none, durationS := none,
    cpuUserS := some 1, cpuSystemS := some 1, memMaxMb := some 64,
    metadata := .obj [], eventRaw := .obj [("kind", .str "job-event")] }

/-- The same request with a timestamp 20 minutes ahead of the witness
server clock. -/
def skewedIngestEvent : IngestEvent :=
  { sampleIngestEvent with atTs := some 2200 }

/-- The empty database. -/
def emptyDb : Db := { events := [], apps := [], jobs := [], subjobs := [] }

/-- Witness for C7: submitting the same record three times against an
empty table leaves exactly one `event` row with its key. -/
theorem c7_idempotent_event_insert_witness :
    (ingestAll 600 1000
        [sampleIngestEvent, sampleIngestEvent, sampleIngestEvent]
        emptyDb).events =
      emptyDb.events ++ [mkEventRow sampleIngestEvent 1000] ∧
    eventKeyCount (ingestAll 600 1000
        [sampleIngestEvent, sampleIngestEvent, sampleIngestEvent]
        emptyDb) "key-1" = 1 :=
  c7_idempotent_event_insert 600 1000 "key-1" sampleIngestEvent
    [sampleIngestEvent, sampleIngestEvent] emptyDb 1000
    (by decide) rfl (by decide) (by decide)

/-- Witness for C8: `at = now + 20 min` with `max_skew_s = 600` is
rejected with the typed skew error and the tables are unchanged. -/
theorem c8_skew_rejection_witness :
    ingest 600 1000 skewedIngestEvent emptyDb =
      (.error (.skewTooLarge 1200), emptyDb) ∧
    (ingest 600 1000 skewedIngestEvent emptyDb).2.events.length =
      emptyDb.events.length := by
  have h := c8_skew_rejection 600 1000 skewedIngestEvent emptyDb 2200
    rfl (by decide)
  simpa using h

/-- Witness for C10: the sample `job` record inserts a job row on every
resubmission while the event table keeps one row. -/
theorem c10_projection_unconditional_witness :
    ((sampleIngestEvent.entityType = "job" →
        (ingest 600 1000 sampleIngestEvent emptyDb).2.jobs =
          emptyDb.jobs ++ [mkJobRow sampleIngestEvent] ∧
        (ingest 600 1000 sampleIngestEvent emptyDb).2.subjobs =
          emptyDb.subjobs) ∧
     (sampleIngestEvent.entityType ≠ "job" →
        (ingest 600 1000 sampleIngestEvent emptyDb).2.subjobs =
          emptyDb.subjobs ++ [mkSubjobRow sampleIngestEvent] ∧
        (ingest 600 1000 sampleIngestEvent emptyDb).2.jobs =
          emptyDb.jobs)) ∧
    (∀ n : Nat,
        (ingestAll 600 1000 (List.replicate n sampleIngestEvent)
            emptyDb).jobs.length =
          emptyDb.jobs.length +
            (if sampleIngestEvent.entityType = "job" then n else 0) ∧
        (ingestAll 600 1000 (List.replicate n sampleIngestEvent)
            emptyDb).subjobs.length =
          emptyDb.subjobs.length +
            (if sampleIngestEvent.entityType = "job" then 0 else n)) ∧
    (eventKeyCount emptyDb sampleIngestEvent.idempotencyKey = 0 →
      ∀ n : Nat, 1 ≤ n →
        eventKeyCount
          (ingestAll 600 1000 (List.replicate n sampleIngestEvent) emptyDb)
          sampleIngestEvent.idempotencyKey = 1) :=
  c10_projection_unconditional 600 1000 sampleIngestEvent emptyDb 1000
    rfl (by decide)

/-- On a full ring, `_buffer_message` takes the overflow branch:
nothing is stored or evicted, only the counters and state change. -/
theorem bufferMessage_full (s : Sdk) (m : SdkMsg)
    (hfull : s.buffer.length = maxBufferSize) :
    s.bufferMessage m =
      { s with conn := .overflow,
               overflowCount := s.overflowCount + 1,
               messagesDropped := s.messagesDropped + 1 } := by
  unfold Sdk.bufferMessage
  rw [if_neg (by omega)]

/-- An SDK state whose ring buffer is full with 1000 distinct messages
(ids 0..999, oldest first) and whose connection is down. -/
def fullSdk : Sdk :=
  { conn := .disconnected, hasSocket := false,
    buffer := (List.range maxBufferSize).map (fun i => ⟨i, 100⟩),
    overflowCount := 0, messagesBuffered := 1000, messagesDropped := 0,
    messagesSent := 0, reconnectCount := 0, reconnectDelay := 1,
    lastReconnect := 0, connectOutcomes := [], sendOutcomes := [] }

theorem fullSdk_buffer_length : fullSdk.buffer.length = maxBufferSize := by
  simp [fullSdk]

set_option maxRecDepth 8000 in
/-- C1 counterexample: enqueueing message 1000 into the full ring does
not evict the oldest message (id 0 is still buffered, the buffer is
unchanged) and does not store the new message — refuting the claimed
drop-oldest eviction — although the dropped counter does increment and
the state does become `OVERFLOW`. -/
theorem c1_counterexample :
    (fullSdk.bufferMessage ⟨1000, 100⟩).buffer = fullSdk.buffer ∧
    (⟨1000, 100⟩ : SdkMsg) ∉ (fullSdk.bufferMessage ⟨1000, 100⟩).buffer ∧
    (⟨0, 100⟩ : SdkMsg) ∈ (fullSdk.bufferMessage ⟨1000, 100⟩).buffer ∧
    (fullSdk.bufferMessage ⟨1000, 100⟩).conn = .overflow ∧
    (fullSdk.bufferMessage ⟨1000, 100⟩).messagesDropped =
      fullSdk.messagesDropped + 1 := by
  have h := bufferMessage_full fullSdk ⟨1000, 100⟩ fullSdk_buffer_length
  rw [h]
  refine ⟨rfl, ?_, ?_, rfl, rfl⟩
  · show (⟨1000, 100⟩ : SdkMsg) ∉ fullSdk.buffer
    simp only [fullSdk, List.mem_map, List.mem_range]
    rintro ⟨i, hi, he⟩
    cases he
    simp [maxBufferSize] at hi
  · show (⟨0, 100⟩ : SdkMsg) ∈ fullSdk.buffer
    simp only [fullSdk, List.mem_map, List.mem_range]
    exact ⟨0, by norm_num [maxBufferSize], rfl⟩

/-- C1 (amended): enqueueing into the full ring of capacity 1000 leaves
the buffer unchanged — the newly offered message itself is discarded
(drop-newest) and no buffered message is evicted — while the dropped
counter increments, the overflow counter increments, and the SDK enters
the `OVERFLOW` state. -/
theorem c1_overflow_drop_newest (s : Sdk) (m : SdkMsg)
    (hfull : s.buffer.length = maxBufferSize) :
    (s.bufferMessage m).buffer = s.buffer ∧
    (m ∉ s.buffer → m ∉ (s.bufferMessage m).buffer) ∧
    (s.bufferMessage m).conn = .overflow ∧
    (s.bufferMessage m).messagesDropped = s.messagesDropped + 1 ∧
    (s.bufferMessage m).overflowCount = s.overflowCount + 1 := by
  rw [bufferMessage_full s m hfull]
  exact ⟨rfl, fun h => h, rfl, rfl, rfl⟩

/-- Witness for the amended C1 at the concrete full ring. -/
theorem c1_overflow_drop_newest_witness :
    (fullSdk.bufferMessage ⟨1001, 100⟩).buffer = fullSdk.buffer ∧
    ((⟨1001, 100⟩ : SdkMsg) ∉ fullSdk.buffer →
      (⟨1001, 100⟩ : SdkMsg) ∉ (fullSdk.bufferMessage ⟨1001, 100⟩).buffer) ∧
    (fullSdk.bufferMessage ⟨1001, 100⟩).conn = .overflow ∧
    (fullSdk.bufferMessage ⟨1001, 100⟩).messagesDropped =
      fullSdk.messagesDropped + 1 ∧
    (fullSdk.bufferMessage ⟨1001, 100⟩).overflowCount =
      fullSdk.overflowCount + 1 :=
  c1_overflow_drop_newest fullSdk ⟨1001, 100⟩ fullSdk_buffer_length

/-- An SDK that is disconnected with two messages queued; the oracle
lets the next connection attempt succeed and makes the next socket
write fail. -/
def reconnectSdk : Sdk :=
  { conn := .disconnected, hasSocket := false,
    buffer := [⟨1, 100⟩, ⟨2, 100⟩],
    overflowCount := 0, messagesBuffered := 2, messagesDropped := 0,
    messagesSent := 0, reconnectCount := 0, reconnectDelay := 1,
    lastReconnect := -100, connectOutcomes := [true], sendOutcomes := [false] }

set_option maxRecDepth 8000 in
/-- C2: evaluating the reconnect-and-drain path at the failing input.
`_connect` succeeds and `_flush_buffer` pops message 1; its resend
fails, so `_send_message` appends message 1 at the tail (via
`_buffer_message`) and then `_flush_buffer` also re-inserts it at the
head — the drained-but-unsent element ends up in the ring twice and
the buffer is `[1, 2, 1]` instead of the claimed undrained suffix
`[1, 2]`. -/
theorem c2_flush_reinserts_twice :
    ((Sdk.connect 10 0 reconnectSdk).2).buffer =
      [⟨1, 100⟩, ⟨2, 100⟩, ⟨1, 100⟩] ∧
    ((Sdk.connect 10 0 reconnectSdk).2).buffer.count ⟨1, 100⟩ = 2 ∧
    ((Sdk.connect 10 0 reconnectSdk).2).conn = .disconnected := by
  decide

theorem recordSuccess_name (b : Backend) : (recordSuccess b).name = b.name := by
  unfold recordSuccess
  split <;> dsimp only <;> split <;> rfl

theorem recordFailure_name (b : Backend) : (recordFailure b).name = b.name := by
  unfold recordFailure
  dsimp only
  split
  · rfl
  · split <;> rfl

theorem routeStep_name (res : String → Bool) (b : Backend) :
    (routeStep res b).name = b.name := by
  unfold routeStep
  split
  · split
    · exact recordSuccess_name b
    · exact recordFailure_name b
  · rfl

/-- A breaker-`FAILED` backend is not in the selection of the batch. -/
theorem routeStep_failed (res : String → Bool) (b : Backend)
    (hf : b.status = .failed) : routeStep res b = b := by
  unfold routeStep
  rw [if_neg]
  simp [Backend.isAvailable, hf]

theorem applyResult_cons_ne (n : String) (ok : Bool) (b : Backend)
    (l : List Backend) (h : b.name ≠ n) :
    applyResult n ok (b :: l) = b :: applyResult n ok l := by
  simp only [applyResult]
  rw [if_neg h]

/-- Folding breaker updates for names that all differ from the head's
name leaves the head alone. -/
theorem foldl_applyResult_cons (res : String → Bool) (names : List String)
    (b : Backend) (l : List Backend) (h : ∀ n ∈ names, b.name ≠ n) :
    names.foldl (fun acc n => applyResult n (res n) acc) (b :: l) =
      b :: names.foldl (fun acc n => applyResult n (res n) acc) l := by
  induction names generalizing l with
  | nil => rfl
  | cons n rest ih =>
    rw [List.foldl_cons, List.foldl_cons,
        applyResult_cons_ne n (res n) b l (h n (by simp))]
    exact ih (applyResult n (res n) l) (fun x hx => h x (by simp [hx]))

theorem selectedNames_subset (bs : List Backend) (n : String)
    (h : n ∈ selectedNames bs) : n ∈ bs.map Backend.name := by
  unfold selectedNames at h
  rw [List.mem_map] at h ⊢
  obtain ⟨b, hb, rfl⟩ := h
  exact ⟨b, List.mem_of_mem_filter hb, rfl⟩

/-- With distinct backend names, `route_batch` updates every backend
pointwise: each selected backend gets its own result's breaker update
and every other backend is untouched. -/
theorem routeBatch_fst_eq_map (res : String → Bool) (bs : List Backend)
    (hn : (bs.map Backend.name).Nodup) :
    (routeBatch res bs).1 = bs.map (routeStep res) := by
  show (selectedNames bs).foldl (fun acc n => applyResult n (res n) acc) bs =
    bs.map (routeStep res)
  induction bs with
  | nil => rfl
  | cons b rest ih =>
    rw [List.map_cons] at hn
    have hnotin : b.name ∉ rest.map Backend.name := (List.nodup_cons.mp hn).1
    have hrest : (rest.map Backend.name).Nodup := (List.nodup_cons.mp hn).2
    have hsel : selectedNames (b :: rest) =
        (if b.enabled && b.isAvailable then [b.name] else []) ++
          selectedNames rest := by
      unfold selectedNames
      rw [List.filter_cons]
      split <;> simp
    rw [hsel]
    by_cases hba : b.enabled && b.isAvailable
    · rw [if_pos hba]
      rw [List.singleton_append, List.foldl_cons]
      have happ : applyResult b.name (res b.name) (b :: rest) =
          routeStep res b :: rest := by
        unfold applyResult
        rw [if_pos rfl]
        unfold routeStep
        rw [if_pos hba]
      rw [happ]
      have hstepname : (routeStep res b).name = b.name := routeStep_name res b
      rw [foldl_applyResult_cons res (selectedNames rest) (routeStep res b) rest
        (fun n hsn hcontra => by
          rw [hstepname] at hcontra
          exact hnotin (hcontra ▸ selectedNames_subset rest n hsn))]
      rw [List.map_cons, ih hrest]
    · rw [if_neg hba]
      rw [List.nil_append]
      rw [foldl_applyResult_cons res (selectedNames rest) b rest
        (fun n hsn hcontra =>
          hnotin (hcontra ▸ selectedNames_subset rest n hsn))]
      rw [List.map_cons, ih hrest]
      congr 1
      unfold routeStep
      rw [if_neg hba]

/-- A breaker-`FAILED` backend (with distinct names) is never among
the backends a batch is sent to. -/
theorem failed_name_not_selected (bs : List Backend) (b : Backend)
    (hn : (bs.map Backend.name).Nodup) (hb : b ∈ bs)
    (hf : b.status = .failed) : b.name ∉ selectedNames bs := by
  intro hmem
  unfold selectedNames at hmem
  rw [List.mem_map] at hmem
  obtain ⟨b2, hb2, hname⟩ := hmem
  have hb2mem : b2 ∈ bs := (List.mem_filter.mp hb2).1
  have hb2av : b2.enabled && b2.isAvailable := (List.mem_filter.mp hb2).2
  have heq : b2 = b :=
    List.inj_on_of_nodup_map hn hb2mem hb (by rw [hname])
  rw [heq] at hb2av
  simp [Backend.isAvailable, hf] at hb2av

/-- C4: from the initial breaker state the third consecutive failure
makes a backend DEGRADED and the fifth makes it FAILED (open); with
distinct backend names, `route_batch` updates every backend from its
own result alone, a FAILED backend is never among the send targets,
and its record is left untouched — so routing decisions for the other
backends are unaffected. -/
theorem c4_breaker_thresholds_and_isolation (res : String → Bool)
    (bs : List Backend) (b0 : Backend)
    (h0s : b0.status = .healthy) (h0c : b0.failureCount = 0)
    (hn : (bs.map Backend.name).Nodup) :
    ((recordFailure^[2] b0).status = .healthy ∧
     (recordFailure^[3] b0).status = .degraded ∧
     (recordFailure^[5] b0).status = .failed) ∧
    (routeBatch res bs).1 = bs.map (routeStep res) ∧
    ∀ b ∈ bs, b.status = .failed →
      b.name ∉ (routeBatch res bs).2 ∧ routeStep res b = b := by
  have e1 : recordFailure b0 = { b0 with failureCount := 1 } := by
    unfold recordFailure
    dsimp only
    rw [h0c]
    norm_num [maxFailures]
  have e2 : recordFailure { b0 with failureCount := 1 } =
      { b0 with failureCount := 2 } := by
    unfold recordFailure
    norm_num [maxFailures]
  have e3 : recordFailure { b0 with failureCount := 2 } =
      { b0 with failureCount := 3, status := .degraded } := by
    unfold recordFailure
    norm_num [maxFailures]
  have e4 : recordFailure { b0 with failureCount := 3, status := .degraded } =
      { b0 with failureCount := 4, status := .degraded } := by
    unfold recordFailure
    norm_num [maxFailures]
  have e5 : recordFailure { b0 with failureCount := 4, status := .degraded } =
      { b0 with failureCount := 5, status := .failed } := by
    unfold recordFailure
    norm_num [maxFailures]
  refine ⟨⟨?_, ?_, ?_⟩, routeBatch_fst_eq_map res bs hn, ?_⟩
  · show (recordFailure (recordFailure b0)).status = _
    rw [e1, e2]
    exact h0s
  · show (recordFailure (recordFailure (recordFailure b0))).status = _
    rw [e1, e2, e3]
  · show (recordFailure (recordFailure (recordFailure (recordFailure
      (recordFailure b0))))).status = _
    rw [e1, e2, e3, e4, e5]
  · intro b hb hf
    exact ⟨failed_name_not_selected bs b hn hb hf, routeStep_failed res b hf⟩

/-- A FAILED backend, a healthy backend and a fresh backend used by
the router witnesses. -/
def deadBackend : Backend :=
  { name := "dead", enabled := true, status := .failed, failureCount := 5 }

/-- A healthy enabled backend. -/
def liveBackend : Backend :=
  { name := "live", enabled := true, status := .healthy, failureCount := 0 }

/-- A backend in the initial breaker state. -/
def freshBackend : Backend :=
  { name := "x", enabled := true, status := .healthy, failureCount := 0 }

/-- Witness for C4 at a two-backend router (one FAILED, one healthy)
with succeeding sends. -/
theorem c4_breaker_thresholds_and_isolation_witness :
    (((recordFailure^[2] freshBackend).status = .healthy ∧
      (recordFailure^[3] freshBackend).status = .degraded ∧
      (recordFailure^[5] freshBackend).status = .failed) ∧
     (routeBatch (fun _ => true) [deadBackend, liveBackend]).1 =
       [deadBackend, liveBackend].map (routeStep (fun _ => true)) ∧
     ∀ b ∈ [deadBackend, liveBackend], b.status = .failed →
       b.name ∉ (routeBatch (fun _ => true) [deadBackend, liveBackend]).2 ∧
       routeStep (fun _ => true) b = b) :=
  c4_breaker_thresholds_and_isolation (fun _ => true)
    [deadBackend, liveBackend] freshBackend rfl rfl (by decide)

/-- The send-result oracle in which every `send_batch` fails. -/
def alwaysFailResult : String → Bool := fun _ => false

/-- A single fresh backend named `a`. -/
def probeBackend : Backend :=
  { name := "a", enabled := true, status := .healthy, failureCount := 0 }

/-- C3 counterexample: after 5 consecutive failing batches the breaker
is FAILED, and each of the next 10 `route_batch` calls — standing for
batches issued at arbitrary later times, so in particular after any
`backend_cooldown_s` has elapsed — sends nothing to the backend: no
half-open probe is ever permitted, refuting the claimed
exactly-one-probe-after-cooldown behaviour (the router keeps no
cooldown clock at all). -/
theorem c3_counterexample :
    routeRounds (List.replicate 5 alwaysFailResult) [probeBackend] =
      [{ name := "a", enabled := true, status := .failed,
         failureCount := 5 }] ∧
    sentRounds (List.replicate 10 alwaysFailResult)
        (routeRounds (List.replicate 5 alwaysFailResult) [probeBackend]) =
      [] := by
  decide

/-- C3 (amended): once a backend's breaker has reached FAILED (OPEN,
after 5 consecutive failures), it rejects sends permanently: the code
has no cooldown and no half-open probe, so across any sequence of
further `route_batch` calls the backend keeps its FAILED record
unchanged and never appears among the send targets (and
`record_success`, which only runs after a send, can never return it to
HEALTHY). -/
theorem c3_open_is_permanent (ress : List (String → Bool))
    (bs : List Backend) (b : Backend)
    (hn : (bs.map Backend.name).Nodup) (hb : b ∈ bs)
    (hf : b.status = .failed) :
    b ∈ routeRounds ress bs ∧ b.name ∉ sentRounds ress bs := by
  induction ress generalizing bs with
  | nil => exact ⟨hb, by simp [sentRounds]⟩
  | cons r rest ih =>
    have hmap := routeBatch_fst_eq_map r bs hn
    have hstep : b ∈ (routeBatch r bs).1 := by
      rw [hmap, List.mem_map]
      exact ⟨b, hb, routeStep_failed r b hf⟩
    have hnames : (routeBatch r bs).1.map Backend.name = bs.map Backend.name := by
      rw [hmap, List.map_map]
      exact List.map_congr_left (fun x _ => routeStep_name r x)
    have hn2 : ((routeBatch r bs).1.map Backend.name).Nodup := by
      rw [hnames]; exact hn
    obtain ⟨ih1, ih2⟩ := ih (routeBatch r bs).1 hn2 hstep
    refine ⟨ih1, ?_⟩
    intro hmem
    rcases List.mem_append.mp hmem with h | h
    · exact failed_name_not_selected bs b hn hb hf h
    · exact ih2 h

/-- Witness for the amended C3: ten further failing batches leave the
FAILED backend untouched and never send to it. -/
theorem c3_open_is_permanent_witness :
    deadBackend ∈
      routeRounds (List.replicate 10 alwaysFailResult)
        [deadBackend, liveBackend] ∧
    deadBackend.name ∉
      sentRounds (List.replicate 10 alwaysFailResult)
        [deadBackend, liveBackend] :=
  c3_open_is_permanent (List.replicate 10 alwaysFailResult)
    [deadBackend, liveBackend] deadBackend (by decide) (by decide) rfl

/-- A well-formed event document. -/
def goodDoc : Json :=
  .obj [("v", .num 1), ("src", .str "svc"), ("ts", .num 1000),
        ("type", .str "event"),
        ("data", .obj [("level", .str "info"), ("msg", .str "hi")])]

/-- The message `goodDoc` decodes to. -/
def goodMsg : Message :=
  { v := .num 1, src := .str "svc", ts := .num 1000, type := .str "event",
    data := .obj [("level", .str "info"), ("msg", .str "hi")] }

/-- C5: for every valid message (protocol version 1, known type,
serialized line within the 64 KiB limit — the required fields are
always present in the dataclass serialization), parsing the LDJSON
encoding returns the message itself, every field (`tid`, `sid`, `pid`
and the `data` payload included) preserved unchanged. -/
theorem c5_codec_roundtrip (m : Message) (t : String)
    (hv : m.v = .num 1) (ht : m.type = .str t)
    (htv : t ∈ messageTypeValues)
    (hsize : jsonLength m.toDoc ≤ maxMessageSize) :
    MessageParser.parse (.doc m.toDoc) = .ok (some m) := by
  obtain ⟨v, src, ts, ty, tid, sid, pid, data⟩ := m
  dsimp only at hv ht hsize ⊢
  subst hv ht
  simp only [MessageParser.parse]
  rw [if_neg (by omega)]
  simp only [messageTypeValues, List.mem_cons, List.not_mem_nil,
    or_false] at htv
  rcases htv with rfl | rfl | rfl | rfl | rfl | rfl | rfl <;> rfl

/-- A concrete span message with every optional field populated. -/
def roundtripMsg : Message :=
  { v := .num 1, src := .str "svc", ts := .num 1700000000000,
    type := .str "span", tid := .str "trace-1", sid := .str "span-1",
    pid := .str "span-0",
    data := .obj [("name", .str "op"), ("start", .num 5), ("end", .null),
                  ("status", .str "started"), ("tags", .obj [])] }

/-- Witness for C5 at the concrete span message. -/
theorem c5_codec_roundtrip_witness :
    MessageParser.parse (.doc roundtripMsg.toDoc) = .ok (some roundtripMsg) :=
  c5_codec_roundtrip roundtripMsg "span" rfl rfl (by decide) (by decide)

/-- The document-level checks of `parse` never produce the size error:
`tooLarge` can only come from the length check on the stripped line. -/
theorem parseDoc_no_tooLarge (j : Json) (n : Nat) :
    MessageParser.parseDoc j ≠ .error (.tooLarge n) := by
  intro h
  cases j <;> simp only [MessageParser.parseDoc] at h <;>
    (repeat' split at h) <;> simp_all

/-- A frame whose stripped content fits the 64 KiB bound can never be
rejected with the size error: `parse`'s other failures use different
`ParseError` constructors. -/
theorem parse_small_no_tooLarge (f : Frame)
    (h : f.strippedLen ≤ maxMessageSize) (n : Nat) :
    MessageParser.parse f ≠ .error (.tooLarge n) := by
  intro hcontra
  cases f with
  | blank => exact Except.noConfusion hcontra
  | malformed k =>
    simp only [MessageParser.parse] at hcontra
    simp only [Frame.strippedLen] at h
    rw [if_neg (by omega)] at hcontra
    exact ParseError.noConfusion (Except.error.inj hcontra)
  | doc j =>
    simp only [MessageParser.parse] at hcontra
    simp only [Frame.strippedLen] at h
    rw [if_neg (by omega)] at hcontra
    cases hp : MessageParser.parseDoc j with
    | ok v =>
      rw [hp] at hcontra
      exact Except.noConfusion
        (show (Except.ok (some v) : Except ParseError (Option Message)) =
          .error (.tooLarge n) from hcontra)
    | error e2 =>
      rw [hp] at hcontra
      have h2 : (Except.error e2 : Except ParseError (Option Message)) =
          .error (.tooLarge n) := hcontra
      exact parseDoc_no_tooLarge j n (by rw [hp, Except.error.inj h2])

/-- An all-`a` padding string of length `n`. -/
def padSrc (n : Nat) : String := String.mk (List.replicate n 'a')

/-- A minimal valid event document with an `n`-character source name;
its compact serialization is `38 + n` characters. -/
def frameDoc (n : Nat) : Json :=
  .obj [("v", .num 1), ("src", .str (padSrc n)), ("ts", .num 0),
        ("type", .str "event")]

theorem escLenString_padSrc (n : Nat) : escLenString (padSrc n) = n := by
  show (List.replicate n 'a').foldl (fun acc c => acc + escLenChar c) 0 = n
  suffices h : ∀ acc, (List.replicate n 'a').foldl
      (fun acc c => acc + escLenChar c) acc = acc + n by
    simpa using h 0
  induction n with
  | zero => intro acc; simp
  | succ k ih =>
    intro acc
    rw [List.replicate_succ, List.foldl_cons, ih]
    have ha : escLenChar 'a' = 1 := by decide
    omega

theorem jsonLength_frameDoc (n : Nat) : jsonLength (frameDoc n) = 38 + n := by
  have h1 : escLenString "v" = 1 := by decide
  have h2 : escLenString "src" = 3 := by decide
  have h3 : escLenString "ts" = 2 := by decide
  have h4 : escLenString "type" = 4 := by decide
  have h5 : escLenString "event" = 5 := by decide
  have h6 : intReprLen 1 = 1 := by decide
  have h7 : intReprLen 0 = 1 := by decide
  simp only [frameDoc, jsonLength, jsonObjLen, escLenString_padSrc,
    h1, h2, h3, h4, h5, h6, h7]
  omega

/-- C6 (amended): the decoder strips the terminating newline (and any
surrounding whitespace) before applying the 64 KiB check to the
remaining text, so the size error fires exactly when the frame's byte
count including the newline exceeds 65 537: frames of 65 536 and even
65 537 bytes (stripped length ≤ 65 536) both pass the size gate, and
the smallest rejected frame is 65 538 bytes including the newline. -/
theorem c6_size_boundary (j : Json) :
    (jsonLength j + 1 ≤ 65537 →
       ∀ n, MessageParser.parse (.doc j) ≠ .error (.tooLarge n)) ∧
    (65537 < jsonLength j + 1 →
       MessageParser.parse (.doc j) = .error (.tooLarge (jsonLength j))) := by
  constructor
  · intro hle n
    exact parse_small_no_tooLarge (.doc j)
      (by simp only [Frame.strippedLen, maxMessageSize]; omega) n
  · intro hgt
    simp only [MessageParser.parse]
    rw [if_pos (by simp only [maxMessageSize]; omega)]

/-- `parseDoc` accepts every `frameDoc` and reconstructs its message
(stated for symbolic `n` so the kernel never evaluates the padding). -/
theorem parseDoc_frameDoc (n : Nat) :
    MessageParser.parseDoc (frameDoc n) =
      .ok { v := .num 1, src := .str (padSrc n), ts := .num 0,
            type := .str "event" } := rfl

/-- The 65 537-byte frame: 65 536 characters of JSON plus the newline. -/
def bigDoc : Json := frameDoc 65498

/-- The message `bigDoc` parses to. -/
def bigMsg : Message :=
  { v := .num 1, src := .str (padSrc 65498), ts := .num 0,
    type := .str "event" }

/-- C6 counterexample: a frame of exactly 65 537 bytes including its
terminating newline is accepted, not rejected — `parse` strips the
newline before the size check, so the stripped length 65 536 does not
exceed `MAX_MESSAGE_SIZE` and the frame decodes to its message. -/
theorem c6_counterexample :
    jsonLength bigDoc + 1 = 65537 ∧
    MessageParser.parse (.doc bigDoc) = .ok (some bigMsg) := by
  have hlen : jsonLength bigDoc = 65536 := by
    show jsonLength (frameDoc 65498) = 65536
    rw [jsonLength_frameDoc]
  refine ⟨by omega, ?_⟩
  simp only [MessageParser.parse]
  rw [if_neg (by rw [hlen]; simp [maxMessageSize])]
  rw [show bigDoc = frameDoc 65498 from rfl, parseDoc_frameDoc 65498]
  rfl

/-- Witness for the amended C6: the 65 538-byte frame (65 537
characters of JSON plus the newline) is rejected with the size error,
while a small frame never sees it. -/
theorem c6_size_boundary_witness :
    MessageParser.parse (.doc (frameDoc 65499)) =
      .error (.tooLarge (jsonLength (frameDoc 65499))) ∧
    (∀ n, MessageParser.parse (.doc (frameDoc 0)) ≠ .error (.tooLarge n)) :=
  ⟨(c6_size_boundary (frameDoc 65499)).2 (by rw [jsonLength_frameDoc]; omega),
   (c6_size_boundary (frameDoc 0)).1 (by rw [jsonLength_frameDoc]; omega)⟩

/-- A delivered line (content within the stream limit) whose parse
raises is skipped: the handler's result on the stream equals its
result on the remaining lines, the connection staying open. -/
theorem handleLines_skip_error (now : Int) (f : RawLine)
    (rest : List RawLine) (e : ParseError)
    (hd : f.len ≤ streamLimit)
    (hf : MessageParser.parse f.frame = .error e) :
    ConnectionHandler.handleLines now (f :: rest) =
      ConnectionHandler.handleLines now rest := by
  simp only [ConnectionHandler.handleLines]
  rw [if_neg (by omega), hf]

/-- A delivered valid non-goodbye line is forwarded in front of the
rest of the stream's result. -/
theorem handleLines_forward (now : Int) (g : RawLine)
    (rest : List RawLine) (m : Message)
    (hd : g.len ≤ streamLimit)
    (hg : MessageParser.parse g.frame = .ok (some m))
    (hv : MessageParser.validateMessage now m = true)
    (hgb : m.type ≠ .str "goodbye") :
    ConnectionHandler.handleLines now (g :: rest) =
      (m :: (ConnectionHandler.handleLines now rest).1,
       (ConnectionHandler.handleLines now rest).2) := by
  simp only [ConnectionHandler.handleLines]
  rw [if_neg (by omega), hg]
  show (if ¬ MessageParser.validateMessage now m = true then _ else _) = _
  rw [if_neg (by simp [hv]), if_neg hgb]

/-- An oversize line ends the connection: `readline` raises before the
line can reach the per-message handler. -/
theorem handleLines_oversize (now : Int) (l : RawLine)
    (rest : List RawLine) (h : streamLimit < l.len) :
    ConnectionHandler.handleLines now (l :: rest) = ([], .readError) := by
  simp only [ConnectionHandler.handleLines]
  rw [if_pos (by omega)]

/-- C9 counterexample: an oversize line (70 000 content bytes) is not
logged and skipped — `reader.readline()` raises `ValueError` outside
the inner `try`, the outer handler breaks the loop and the connection
closes — and the valid event line behind it is never decoded or
forwarded, refuting the claimed skip-and-continue for oversize
frames. -/
theorem c9_counterexample :
    ConnectionHandler.handleLines 1000
        (⟨Frame.malformed 70000, 0⟩ :: ⟨Frame.doc goodDoc, 0⟩ :: []) =
      ([], .readError) := by
  rfl

/-- C9 (amended): a delivered line that fails to decode for any reason
other than size — invalid JSON, unknown message type, wrong protocol
version, missing required fields — is logged and skipped without
closing the connection, and the next valid line on the same connection
is decoded and forwarded to the message handler normally; an oversize
line instead makes `readline` raise against the default 64 KiB stream
limit outside the per-message handler, closing the connection, and a
line the stream does deliver can never trip the parser's own size
check. -/
theorem c9_bad_line_skipped (now : Int) (f g : RawLine)
    (rest : List RawLine) (e : ParseError) (m : Message)
    (hfd : f.len ≤ streamLimit)
    (hf : MessageParser.parse f.frame = .error e)
    (hgd : g.len ≤ streamLimit)
    (hg : MessageParser.parse g.frame = .ok (some m))
    (hv : MessageParser.validateMessage now m = true)
    (hgb : m.type ≠ .str "goodbye") :
    (∀ rest2 : List RawLine,
       ConnectionHandler.handleLines now (f :: rest2) =
         ConnectionHandler.handleLines now rest2) ∧
    ConnectionHandler.handleLines now (f :: g :: rest) =
      (m :: (ConnectionHandler.handleLines now rest).1,
       (ConnectionHandler.handleLines now rest).2) ∧
    (∀ (l : RawLine) (rest2 : List RawLine), streamLimit < l.len →
       ConnectionHandler.handleLines now (l :: rest2) = ([], .readError)) ∧
    (∀ l : RawLine, l.len ≤ streamLimit →
       ∀ n, MessageParser.parse l.frame ≠ .error (.tooLarge n)) := by
  refine ⟨fun rest2 => handleLines_skip_error now f rest2 e hfd hf, ?_,
    fun l rest2 h => handleLines_oversize now l rest2 h,
    fun l hl n => parse_small_no_tooLarge l.frame ?_ n⟩
  · rw [handleLines_skip_error now f (g :: rest) e hfd hf,
        handleLines_forward now g rest m hgd hg hv hgb]
  · simp only [RawLine.len, streamLimit] at hl
    simp only [maxMessageSize]
    omega

/-- Witness for the amended C9: a 100-byte junk line is skipped, the
valid event line after it is forwarded, and the stream afterwards
reaches EOF normally. -/
theorem c9_bad_line_skipped_witness :
    (∀ rest2 : List RawLine,
       ConnectionHandler.handleLines 1000
           (⟨Frame.malformed 100, 0⟩ :: rest2) =
         ConnectionHandler.handleLines 1000 rest2) ∧
    ConnectionHandler.handleLines 1000
        (⟨Frame.malformed 100, 0⟩ :: ⟨Frame.doc goodDoc, 0⟩ :: []) =
      (goodMsg ::
         (ConnectionHandler.handleLines 1000 ([] : List RawLine)).1,
       (ConnectionHandler.handleLines 1000 ([] : List RawLine)).2) ∧
    (∀ (l : RawLine) (rest2 : List RawLine), streamLimit < l.len →
       ConnectionHandler.handleLines 1000 (l :: rest2) = ([], .readError)) ∧
    (∀ l : RawLine, l.len ≤ streamLimit →
       ∀ n, MessageParser.parse l.frame ≠ .error (.tooLarge n)) :=
  c9_bad_line_skipped 1000 ⟨Frame.malformed 100, 0⟩ ⟨Frame.doc goodDoc, 0⟩
    [] .invalidJson goodMsg (by decide) (by rfl) (by decide) (by rfl)
    (by decide) (by decide)
